import Mathlib

/-!
Verification of the hybrid PDF text-extraction service
(`internal/quality/quality.go`, `internal/hybrid/hybrid.go`,
`internal/format/format.go`, `internal/config/config.go`).

Shallow embedding conventions:
* Go `string` is Lean `String`; character-level helpers work on `List Char`.
* Go `float64` arithmetic is modelled exactly with `ℚ`; `int(x)` conversion
  of a float is truncation toward zero (`truncQ`).
* Go `int` is Lean `Int`; non-negative counters use `Nat` and are cast.
* The external collaborators (poppler page source, Mistral OCR gateway) are
  modelled as fields of an explicit environment `Env`; `processHybrid` and
  `processPreview` additionally return the list of OCR batch calls issued,
  so "no call" / "one call with these pages" is a provable statement.
* `unicode.IsLetter`, `unicode.IsDigit`, `unicode.IsControl`,
  `strings.ToLower` are modelled by their restriction to the Latin-1 range
  (all concrete inputs used in the development are ASCII, where the
  restriction agrees with Go's tables).
-/

set_option maxHeartbeats 1000000
set_option maxRecDepth 10000

namespace GoStr

/-- Go `unicode.IsSpace` (Latin-1 range): space, \t, \n, \v, \f, \r, NEL, NBSP. -/
def goIsSpace (c : Char) : Bool :=
  c = ' ' || c = '\t' || c = '\n' || c = Char.ofNat 0x0B || c = Char.ofNat 0x0C ||
    c = Char.ofNat 0x0D || c = Char.ofNat 0x85 || c = Char.ofNat 0xA0

/-- Go `unicode.IsLetter` restricted to ASCII. -/
def goIsLetter (c : Char) : Bool := c.isAlpha

/-- Go `unicode.IsDigit` restricted to ASCII. -/
def goIsDigit (c : Char) : Bool := c.isDigit

/-- Go `unicode.IsControl` (Latin-1 range): C0 and C1 control characters and DEL. -/
def goIsControl (c : Char) : Bool :=
  c.toNat < 0x20 || c.toNat = 0x7F || (0x80 ≤ c.toNat && c.toNat ≤ 0x9F)

/-- `strings.ReplaceAll(s, "\r\n", "\n")`: leftmost, non-overlapping. -/
def replaceCRLF : List Char → List Char
  | '\r' :: '\n' :: t => '\n' :: replaceCRLF t
  | c :: t => c :: replaceCRLF t
  | [] => []

/-- `strings.ReplaceAll(s, "\r", "\n")`. -/
def crToNl (l : List Char) : List Char := l.map (fun c => if c = '\r' then '\n' else c)

/-- Trim leading Go whitespace. -/
def trimLeft (l : List Char) : List Char := l.dropWhile goIsSpace

/-- Go `strings.TrimSpace` on a character list. -/
def trim (l : List Char) : List Char :=
  ((trimLeft l).reverse.dropWhile goIsSpace).reverse

/-- Regex `[ \t]+` replaced by a single space: each maximal run of
space/tab characters collapses to one space. `prev` records whether the
previous character belonged to such a run. -/
def collapseWSAux (prev : Bool) : List Char → List Char
  | [] => []
  | c :: t =>
    if c = ' ' || c = '\t' then
      if prev then collapseWSAux true t else ' ' :: collapseWSAux true t
    else c :: collapseWSAux false t

def collapseWS (l : List Char) : List Char := collapseWSAux false l

/-- Emit a run of `k` consecutive newlines, applying the regex
`\n{4,}` → `"\n\n"` (runs of four or more newlines become two). -/
def emitNl (k : Nat) : List Char :=
  List.replicate (if 4 ≤ k then 2 else k) '\n'

/-- Regex `\n{4,}` replaced by `"\n\n"`; `k` counts pending newlines. -/
def capNlAux (k : Nat) : List Char → List Char
  | [] => emitNl k
  | c :: t => if c = '\n' then capNlAux (k + 1) t else emitNl k ++ (c :: capNlAux 0 t)

def capNewlines (l : List Char) : List Char := capNlAux 0 l

/-- `strings.Fields`: maximal runs of non-whitespace characters; `cur` is the
current word accumulated in reverse. -/
def fieldsAux (cur : List Char) : List Char → List (List Char)
  | [] => if cur = [] then [] else [cur.reverse]
  | c :: t =>
    if goIsSpace c then
      if cur = [] then fieldsAux [] t else cur.reverse :: fieldsAux [] t
    else fieldsAux (c :: cur) t

def fields (l : List Char) : List (List Char) := fieldsAux [] l

/-- `strings.Split(s, "\n")` (keeps empty segments). -/
def splitNlAux (cur : List Char) : List Char → List (List Char)
  | [] => [cur.reverse]
  | c :: t => if c = '\n' then cur.reverse :: splitNlAux [] t else splitNlAux (c :: cur) t

def splitNl (l : List Char) : List (List Char) := splitNlAux [] l

/-- `strings.ToLower` restricted to ASCII. -/
def toLower (l : List Char) : List Char := l.map Char.toLower

end GoStr

/-- Go `strings.TrimSpace` on strings. -/
def goTrimSpace (s : String) : String := ⟨GoStr.trim s.data⟩

/-!
Exact rational arithmetic for the embedded `float64` computations.
`Rat.add`/`Rat.sub`/`Rat.mul`/`Rat.inv` from core do not reduce inside the
kernel, so the embedding computes with `Rat.divInt` (which does); the bridge
lemmas `qadd_eq` … `qdiv_eq` show these are the ordinary field operations
of `ℚ`.
-/

/-- Addition on `ℚ` by cross-multiplication. -/
def qadd (a b : ℚ) : ℚ := Rat.divInt (a.num * b.den + b.num * a.den) (a.den * b.den)

/-- Subtraction on `ℚ` by cross-multiplication. -/
def qsub (a b : ℚ) : ℚ := Rat.divInt (a.num * b.den - b.num * a.den) (a.den * b.den)

/-- Multiplication on `ℚ`. -/
def qmul (a b : ℚ) : ℚ := Rat.divInt (a.num * b.num) (a.den * b.den)

/-- Division on `ℚ` (zero denominator yields zero, as in Mathlib). -/
def qdiv (a b : ℚ) : ℚ := Rat.divInt (a.num * b.den) (a.den * b.num)

theorem num_eq_self_mul_den (a : ℚ) : (a.num : ℚ) = a * a.den :=
  (div_eq_iff (Nat.cast_ne_zero.mpr a.den_ne_zero)).mp (Rat.num_div_den a)

theorem qadd_eq (a b : ℚ) : qadd a b = a + b := by
  have hda : ((a.den : ℚ)) ≠ 0 := Nat.cast_ne_zero.mpr a.den_ne_zero
  have hdb : ((b.den : ℚ)) ≠ 0 := Nat.cast_ne_zero.mpr b.den_ne_zero
  rw [qadd, Rat.divInt_eq_div]
  push_cast
  rw [div_eq_iff (mul_ne_zero hda hdb), num_eq_self_mul_den, num_eq_self_mul_den]
  ring

theorem qsub_eq (a b : ℚ) : qsub a b = a - b := by
  have hda : ((a.den : ℚ)) ≠ 0 := Nat.cast_ne_zero.mpr a.den_ne_zero
  have hdb : ((b.den : ℚ)) ≠ 0 := Nat.cast_ne_zero.mpr b.den_ne_zero
  rw [qsub, Rat.divInt_eq_div]
  push_cast
  rw [div_eq_iff (mul_ne_zero hda hdb), num_eq_self_mul_den, num_eq_self_mul_den]
  ring

theorem qmul_eq (a b : ℚ) : qmul a b = a * b := by
  have hda : ((a.den : ℚ)) ≠ 0 := Nat.cast_ne_zero.mpr a.den_ne_zero
  have hdb : ((b.den : ℚ)) ≠ 0 := Nat.cast_ne_zero.mpr b.den_ne_zero
  rw [qmul, Rat.divInt_eq_div]
  push_cast
  rw [div_eq_iff (mul_ne_zero hda hdb), num_eq_self_mul_den, num_eq_self_mul_den]
  ring

theorem qdiv_eq (a b : ℚ) : qdiv a b = a / b := by
  rcases eq_or_ne b 0 with rfl | hb
  · simp [qdiv, Rat.divInt_eq_div]
  · have hda : ((a.den : ℚ)) ≠ 0 := Nat.cast_ne_zero.mpr a.den_ne_zero
    have hnb : ((b.num : ℚ)) ≠ 0 := Int.cast_ne_zero.mpr (Rat.num_ne_zero.mpr hb)
    rw [qdiv, Rat.divInt_eq_div]
    push_cast
    rw [div_eq_div_iff (mul_ne_zero hda hnb) hb, num_eq_self_mul_den, num_eq_self_mul_den]
    ring

/-- Truncation toward zero: Go's conversion `int(x)` of a `float64`. -/
def truncQ (q : ℚ) : Int := if 0 ≤ q then ⌊q⌋ else ⌈q⌉

namespace Quality

/-- `quality.Decision`. -/
structure Decision where
  quality : ℚ
  needsOCR : Bool
  maybeOCR : Bool
  reasons : List String
  wordCount : Nat
  deriving Repr, DecidableEq

/-- `quality.CountWords`. -/
def countWords (s : String) : Nat :=
  let t := goTrimSpace s
  if t = "" then 0 else (GoStr.fields t.data).length

/-- `quality.normalize`: unify line endings, collapse `[ \t]+`, cap runs of
four or more newlines to two, trim. -/
def normalize (s : String) : String :=
  ⟨GoStr.trim (GoStr.capNewlines (GoStr.collapseWS (GoStr.crToNl (GoStr.replaceCRLF s.data))))⟩

/-- `quality.countIf`. -/
def countIf (s : String) (pred : Char → Bool) : Nat := s.data.countP pred

/-- `quality.countGarbage`: replacement char or control characters other than `\n`. -/
def countGarbage (s : String) : Nat :=
  s.data.countP (fun r => r = Char.ofNat 0xFFFD || (GoStr.goIsControl r && r ≠ '\n'))

/-- `quality.safeDiv`. -/
def safeDiv (a b : ℚ) : ℚ := if b ≤ 0 then 0 else qdiv a b

/-- `quality.clamp` (via `math.Max`/`math.Min`). -/
def clamp (x lo hi : ℚ) : ℚ := max lo (min hi x)

/-- `quality.splitLines`: nil for blank input, else the non-blank trimmed lines. -/
def splitLines (s : String) : List String :=
  if GoStr.trim s.data = [] then []
  else ((GoStr.splitNl s.data).map (fun l => (⟨GoStr.trim l⟩ : String))).filter (· ≠ "")

/-- `quality.lineStats`: average rune length and proportion of lines shorter
than 20 runes. -/
def lineStats (lines : List String) : ℚ × ℚ :=
  if lines = [] then (0, 0)
  else
    (qdiv ((lines.map (fun l => l.data.length)).sum : ℚ) (lines.length : ℚ),
      qdiv (lines.countP (fun l => l.data.length < 20) : ℚ) (lines.length : ℚ))

/-- `quality.uniqueWordRatio`: distinct lowercase words over total words. -/
def uniqueWordRatio (s : String) : ℚ :=
  let ws := GoStr.fields (GoStr.toLower s.data)
  if ws = [] then 0 else qdiv (ws.dedup.length : ℚ) (ws.length : ℚ)

/-- Steps 1–6 of `quality.Score`: the pre-clamp score, the reason tags in
order of the penalty/bonus checks, and the word count. -/
def scoreFeatures (text : String) (minWords : Int) : ℚ × List String × Nat :=
  let clean := normalize text
  let wc := countWords clean
  let total : ℚ := (clean.data.length : ℚ)
  let alpha : ℚ := (countIf clean GoStr.goIsLetter : ℚ)
  let digits : ℚ := (countIf clean GoStr.goIsDigit : ℚ)
  let garbage : ℚ := (countGarbage clean : ℚ)
  let alphaRatio := safeDiv alpha total
  let digitRatio := safeDiv digits total
  let garbageRatio := safeDiv garbage total
  let lines := splitLines clean
  let lineCount := lines.length
  let stats := lineStats lines
  let avgLineLen := stats.1
  let shortLineRatio := stats.2
  let uniq := uniqueWordRatio clean
  let s1 : ℚ × List String := (1, [])
  let s2 := if (wc : Int) < minWords then
      (qsub s1.1 (mkRat 45 100), s1.2 ++ ["low_word_count"]) else s1
  let s3 := if alphaRatio < mkRat 35 100 then
      (qsub s2.1 (mkRat 35 100), s2.2 ++ ["low_alpha_ratio"]) else s2
  let s4 := if garbageRatio > mkRat 1 100 then
      (qsub s3.1 (mkRat 40 100), s3.2 ++ ["garbage_chars"]) else s3
  let s5 := if 0 < lineCount ∧ shortLineRatio > mkRat 55 100 ∧ avgLineLen < 25 then
      (qsub s4.1 (mkRat 25 100), s4.2 ++ ["fragmented_lines"]) else s4
  let s6 := if 30 < wc ∧ uniq < mkRat 25 100 then
      (qsub s5.1 (mkRat 15 100), s5.2 ++ ["low_unique_words"]) else s5
  let s7 := if digitRatio > mkRat 25 100 ∧ alphaRatio < mkRat 20 100 ∧ minWords ≤ (wc : Int) then
      (qadd s6.1 (mkRat 10 100), s6.2 ++ ["numeric_heavy"]) else s6
  (s7.1, s7.2, wc)

/-- `quality.Score`: clamp the feature score to [0,1] and classify
(`needsOCR` iff score < 0.55; `maybeOCR` iff 0.55 ≤ score < 0.70). -/
def Score (text : String) (minWords : Int) : Decision :=
  match scoreFeatures text minWords with
  | (raw, reasons, wc) =>
    let score := clamp raw 0 1
    { quality := score
      needsOCR := decide (score < mkRat 55 100)
      maybeOCR := !decide (score < mkRat 55 100) && decide (score < mkRat 70 100)
      reasons := reasons
      wordCount := wc }

end Quality

namespace Hybrid

/-- `types.HybridProcessorOptions`. -/
structure HybridProcessorOptions where
  minWordsThreshold : Int
  pageSeparator : String
  includePageNumbers : Bool
  ocrTriggerRatio : ℚ
  pages : List Int
  extractHeader : Bool
  extractFooter : Bool
  ocrModel : Option String
  deriving Repr, DecidableEq

/-- The zero value of `HybridProcessorOptions` (all fields omitted in JSON). -/
def zeroOptions : HybridProcessorOptions :=
  { minWordsThreshold := 0, pageSeparator := "", includePageNumbers := false,
    ocrTriggerRatio := 0, pages := [], extractHeader := false, extractFooter := false,
    ocrModel := none }

/-- `types.PageExtractionResult`. -/
structure PageExtractionResult where
  pageNumber : Int
  text : String
  method : String
  wordCount : Nat
  deriving Repr, DecidableEq

/-- `types.HybridExtractionResult`. -/
structure HybridExtractionResult where
  success : Bool
  text : String
  pages : List PageExtractionResult
  totalPages : Int
  textLayerPages : Int
  ocrPages : Int
  costSavingsPercent : Int
  error : Option String
  deriving Repr, DecidableEq

/-- `types.PreviewResult`. -/
structure PreviewResult where
  success : Bool
  needsOCR : Bool
  text : String
  wordCount : Nat
  totalPages : Int
  textLayerPages : Int
  error : Option String
  deriving Repr, DecidableEq

/-- One page of a Mistral OCR response (`ocr.RunMistralOCR`): a zero-based
page index and the recognized markdown. -/
structure OCRPage where
  index : Int
  markdown : String
  deriving Repr, DecidableEq

/-- `hybrid.PageEval`. -/
structure PageEval where
  page : Int
  text : String
  decision : Quality.Decision
  deriving Repr, DecidableEq

/-- External collaborators of the orchestrator: the poppler page source
(`extractor.PageCount`, `extractor.TextForPage` — an extraction error
degrades to whatever partial text came back, so it is a total function)
and the Mistral OCR gateway (`ocr.RunMistralOCR`), one batched call over
zero-indexed pages. -/
structure Env where
  pageCount : Except String Int
  textForPage : Int → String
  runOCR : List Int → Except String (List OCRPage)

/-- `hybrid.WithDefaults`. -/
def withDefaults (o : HybridProcessorOptions) : HybridProcessorOptions :=
  let o1 := if o.minWordsThreshold = 0 then { o with minWordsThreshold := 10 } else o
  let o2 := if o1.pageSeparator = "" then { o1 with pageSeparator := "\n\n---\n\n" } else o1
  let o3 := if o2.ocrTriggerRatio = 0 then { o2 with ocrTriggerRatio := mkRat 3 10 } else o2
  if o3.includePageNumbers = false then { o3 with includePageNumbers := true } else o3

/-- `hybrid.cleanText`: unify line endings and trim. -/
def cleanText (s : String) : String :=
  ⟨GoStr.trim (GoStr.crToNl (GoStr.replaceCRLF s.data))⟩

/-- `hybrid.cleanOCR`: unify line endings and trim. -/
def cleanOCR (s : String) : String :=
  ⟨GoStr.trim (GoStr.crToNl (GoStr.replaceCRLF s.data))⟩

/-- Deduplication keeping the first occurrence (the `seen` map of
`hybrid.normalizePages`). -/
def dedupFirstAux (seen : List Int) : List Int → List Int
  | [] => []
  | n :: rest =>
    if n ∈ seen then dedupFirstAux seen rest else n :: dedupFirstAux (n :: seen) rest

def dedupFirst (l : List Int) : List Int := dedupFirstAux [] l

/-- `hybrid.normalizePages`: `none` models the Go `nil` return. Entries out
of `[1, total]` are dropped, duplicates keep their first occurrence, and
the result is sorted ascending. -/
def normalizePages (req : List Int) (total : Int) : Option (List Int) :=
  if req.length = 0 ∨ total ≤ 0 then none
  else if ((dedupFirst (req.filter (fun n => decide (1 ≤ n ∧ n ≤ total)))).insertionSort
      (· ≤ ·)).length = 0 then none
  else some ((dedupFirst (req.filter (fun n => decide (1 ≤ n ∧ n ≤ total)))).insertionSort
      (· ≤ ·))

/-- All pages `1..total` (the fallback when `normalizePages` returns nil). -/
def allPages (total : Int) : List Int :=
  (List.range total.toNat).map (fun i : Nat => (i : Int) + 1)

/-- The selected page set of `ProcessHybrid`/`ProcessPreview` (step 2). -/
def selectPages (req : List Int) (total : Int) : List Int :=
  match normalizePages req total with
  | some s => s
  | none => allPages total

/-- `hybrid.toZeroIndexed`. -/
def toZeroIndexed (pages1 : List Int) : List Int :=
  (pages1.map (fun p => p - 1)).insertionSort (· ≤ ·)

/-- Step 3 of `ProcessHybrid`: per-page text-layer extraction and quality
decision, in page order. -/
def evalsFor (env : Env) (opts : HybridProcessorOptions) (pages : List Int) : List PageEval :=
  pages.map (fun p =>
    let raw := cleanText (env.textForPage p)
    { page := p, text := raw, decision := Quality.Score raw opts.minWordsThreshold })

/-- The pages flagged `needsOCR`, in page order. -/
def flaggedOf (evals : List PageEval) : List Int :=
  (evals.filter (fun ev => ev.decision.needsOCR)).map (fun ev => ev.page)

/-- `ocrRatio = countNeedsOCR / countSelected` (0 when nothing selected). -/
def ratioOf (selected flagged : List Int) : ℚ :=
  if 0 < selected.length then qdiv (flagged.length : ℚ) (selected.length : ℚ) else 0

/-- Step 2 of the OCR strategy (`pagesForOCR0`): all selected pages when
the flagged ratio exceeds the trigger, only the flagged pages otherwise,
nothing when no page is flagged. -/
def ocrTarget (selected flagged : List Int) (trigger : ℚ) : List Int :=
  if 0 < flagged.length then
    if ratioOf selected flagged > trigger then toZeroIndexed selected
    else toZeroIndexed flagged
  else []

/-- The Go map `ocrMarkdownByPage`: fold of `m[pg.Index+1] = cleanOCR(pg.Markdown)`
(later entries overwrite earlier ones). -/
def mapFromPages (pages : List OCRPage) : Int → Option String :=
  pages.foldl
    (fun m pg => fun k => if k = pg.index + 1 then some (cleanOCR pg.markdown) else m k)
    (fun _ => none)

/-- `hybrid.fail`. -/
def fail (msg : String) : HybridExtractionResult :=
  { success := false, text := "", pages := [], totalPages := 0, textLayerPages := 0,
    ocrPages := 0, costSavingsPercent := 0, error := some msg }

end Hybrid

namespace Format

/-- The segment one page contributes to `format.Combine`: nothing when the
trimmed text is empty, otherwise the optional `## Page N` marker plus the
trimmed text. -/
def pageSegment (includePageNums : Bool) (p : Hybrid.PageExtractionResult) : Option String :=
  let txt := goTrimSpace p.text
  if txt = "" then none
  else some (if includePageNums then "## Page " ++ toString p.pageNumber ++ "\n\n" ++ txt else txt)

/-- `format.Combine`: join the non-empty page segments with the separator
and trim the result. -/
def combine (pages : List Hybrid.PageExtractionResult) (sep : String)
    (includePageNums : Bool) : String :=
  goTrimSpace (String.intercalate sep (pages.filterMap (pageSegment includePageNums)))

end Format

namespace Hybrid

/-- Whether the merge step uses the OCR result for a page: an entry exists
in the OCR map and its trimmed markdown is non-empty. -/
def usesOCR (m : Int → Option String) (ev : PageEval) : Bool :=
  match m ev.page with
  | some md => decide (goTrimSpace md ≠ "")
  | none => false

/-- Steps 4–8 of `ProcessHybrid`: merge OCR and text-layer pages in order,
combine, and aggregate counts and the savings estimate. -/
def buildResult (opts : HybridProcessorOptions) (totalPages : Int) (evals : List PageEval)
    (m : Int → Option String) : HybridExtractionResult :=
  let out := evals.map (fun ev =>
    if usesOCR m ev then
      { pageNumber := ev.page, text := (m ev.page).getD "", method := "ocr",
        wordCount := Quality.countWords ((m ev.page).getD "") }
    else
      { pageNumber := ev.page, text := ev.text, method := "text-layer",
        wordCount := ev.decision.wordCount })
  let ocrCount := evals.countP (usesOCR m)
  let combined := Format.combine out opts.pageSeparator opts.includePageNumbers
  let savings : Int :=
    if 0 < out.length then truncQ (qmul (qsub 1 (qdiv (ocrCount : ℚ) (out.length : ℚ))) 100)
    else 0
  { success := true, text := combined, pages := out, totalPages := totalPages,
    textLayerPages := (out.length : Int) - (ocrCount : Int), ocrPages := (ocrCount : Int),
    costSavingsPercent := savings, error := none }

/-- Step 3 of `ProcessHybrid` (the single batched `ocr.RunMistralOCR` call),
split on the gateway's answer: a failure aborts the request, a success
merges the returned markdown. -/
def ocrStep (opts : HybridProcessorOptions) (totalPages : Int) (evals : List PageEval)
    (target : List Int) : Except String (List OCRPage) →
      HybridExtractionResult × List (List Int)
  | .error e => (fail ("ocr failed: " ++ e), [target])
  | .ok respPages => (buildResult opts totalPages evals (mapFromPages respPages), [target])

/-- The body of `ProcessHybrid` after the page count came back. -/
def processHybridCore (env : Env) (opts : HybridProcessorOptions) :
    Except String Int → HybridExtractionResult × List (List Int)
  | .error e => (fail ("page count failed: " ++ e), [])
  | .ok totalPages =>
    if totalPages ≤ 0 then (fail "page count failed: <nil>", [])
    else
      let pagesToInclude := selectPages opts.pages totalPages
      let evals := evalsFor env opts pagesToInclude
      let flagged := flaggedOf evals
      let pagesForOCR0 := ocrTarget pagesToInclude flagged opts.ocrTriggerRatio
      if 0 < pagesForOCR0.length then
        ocrStep opts totalPages evals pagesForOCR0 (env.runOCR pagesForOCR0)
      else (buildResult opts totalPages evals (fun _ => none), [])

/-- `hybrid.ProcessHybrid`. The second component is the list of batched OCR
calls issued (the page argument of each `ocr.RunMistralOCR` invocation). -/
def processHybrid (env : Env) (opts0 : HybridProcessorOptions) :
    HybridExtractionResult × List (List Int) :=
  processHybridCore env (withDefaults opts0) env.pageCount

/-- The body of `ProcessPreview` after the page count came back. -/
def processPreviewCore (env : Env) (opts : HybridProcessorOptions) :
    Except String Int → PreviewResult × List (List Int)
  | .error _ =>
    ({ success := false, needsOCR := true, text := "", wordCount := 0, totalPages := 0,
       textLayerPages := 0, error := some "page count failed" }, [])
  | .ok totalPages =>
    if totalPages ≤ 0 then
      ({ success := false, needsOCR := true, text := "", wordCount := 0, totalPages := 0,
         textLayerPages := 0, error := some "page count failed" }, [])
    else
      let pagesToInclude := selectPages opts.pages totalPages
      let evals := evalsFor env opts pagesToInclude
      let needs := (evals.filter (fun ev => ev.decision.needsOCR)).length
      let textLayer := (evals.filter (fun ev => !ev.decision.needsOCR)).length
      let ratio := ratioOf pagesToInclude (flaggedOf evals)
      ({ success := true, needsOCR := decide (0 < needs) && decide (ratio > opts.ocrTriggerRatio),
         text := "", wordCount := 0, totalPages := totalPages,
         textLayerPages := (textLayer : Int), error := none }, [])

/-- `hybrid.ProcessPreview`. The second component is the list of OCR calls
issued — always `[]`, the function has no OCR path. -/
def processPreview (env : Env) (opts0 : HybridProcessorOptions) :
    PreviewResult × List (List Int) :=
  processPreviewCore env (withDefaults opts0) env.pageCount

end Hybrid

namespace Hybrid

theorem mem_dedupFirstAux {a : Int} :
    ∀ {l seen : List Int}, a ∈ dedupFirstAux seen l ↔ (a ∈ l ∧ a ∉ seen)
  | [], seen => by simp [dedupFirstAux]
  | n :: rest, seen => by
    by_cases h : n ∈ seen
    · rw [dedupFirstAux, if_pos h, mem_dedupFirstAux]
      constructor
      · rintro ⟨h1, h2⟩
        exact ⟨List.mem_cons_of_mem _ h1, h2⟩
      · rintro ⟨h1, h2⟩
        rcases List.mem_cons.mp h1 with rfl | h1
        · exact absurd h h2
        · exact ⟨h1, h2⟩
    · rw [dedupFirstAux, if_neg h]
      constructor
      · intro hm
        rcases List.mem_cons.mp hm with rfl | hm
        · exact ⟨List.mem_cons_self _ _, h⟩
        · rcases mem_dedupFirstAux.mp hm with ⟨h1, h2⟩
          exact ⟨List.mem_cons_of_mem _ h1,
            fun hs => h2 (List.mem_cons_of_mem _ hs)⟩
      · rintro ⟨h1, h2⟩
        rcases List.mem_cons.mp h1 with rfl | h1
        · exact List.mem_cons_self _ _
        · by_cases ha : a = n
          · exact ha ▸ List.mem_cons_self _ _
          · exact List.mem_cons_of_mem _ (mem_dedupFirstAux.mpr
              ⟨h1, fun hs => (List.mem_cons.mp hs).elim ha h2⟩)

theorem mem_dedupFirst {a : Int} {l : List Int} : a ∈ dedupFirst l ↔ a ∈ l := by
  rw [dedupFirst, mem_dedupFirstAux]
  simp

theorem nodup_dedupFirstAux : ∀ (l seen : List Int), (dedupFirstAux seen l).Nodup
  | [], _ => List.nodup_nil
  | n :: rest, seen => by
    by_cases h : n ∈ seen
    · rw [dedupFirstAux, if_pos h]
      exact nodup_dedupFirstAux rest seen
    · rw [dedupFirstAux, if_neg h]
      refine List.Nodup.cons ?_ (nodup_dedupFirstAux rest (n :: seen))
      intro hm
      exact (mem_dedupFirstAux.mp hm).2 (List.mem_cons_self _ _)

theorem nodup_dedupFirst (l : List Int) : (dedupFirst l).Nodup := nodup_dedupFirstAux l []

theorem sorted_lt_allPages (total : Int) : List.Sorted (· < ·) (allPages total) := by
  rw [allPages, List.Sorted]
  exact List.Pairwise.map (fun i : Nat => (i : Int) + 1)
    (fun a b h => by
      have hab : a < b := h
      show (a : Int) + 1 < (b : Int) + 1
      omega)
    (List.pairwise_lt_range total.toNat)

/-- The selected page set is strictly ascending (hence duplicate-free). -/
theorem sorted_lt_selectPages (req : List Int) (total : Int) :
    List.Sorted (· < ·) (selectPages req total) := by
  unfold selectPages
  rcases h : normalizePages req total with _ | s
  · exact sorted_lt_allPages total
  · unfold normalizePages at h
    by_cases h1 : req.length = 0 ∨ total ≤ 0
    · rw [if_pos h1] at h
      exact absurd h (by simp)
    · rw [if_neg h1] at h
      by_cases h2 : ((dedupFirst (req.filter (fun n => decide (1 ≤ n ∧ n ≤ total)))).insertionSort
          (· ≤ ·)).length = 0
      · rw [if_pos h2] at h
        exact absurd h (by simp)
      · rw [if_neg h2, Option.some.injEq] at h
        subst h
        exact (List.sorted_insertionSort (· ≤ ·) _).lt_of_le
          (((List.perm_insertionSort (· ≤ ·) _).nodup_iff).mpr (nodup_dedupFirst _))

theorem mem_selectPages {req : List Int} {total : Int}
    (hne : req.filter (fun n => decide (1 ≤ n ∧ n ≤ total)) ≠ []) (n : Int) :
    n ∈ selectPages req total ↔ (n ∈ req ∧ 1 ≤ n ∧ n ≤ total) := by
  have htot : ¬ total ≤ 0 := by
    intro hle
    apply hne
    rw [List.filter_eq_nil_iff]
    intro a _
    simp only [decide_eq_true_iff, not_and]
    omega
  have hreq : ¬ req.length = 0 := by
    intro h0
    rw [List.length_eq_zero] at h0
    subst h0
    exact hne rfl
  have hlen : ¬ ((dedupFirst (req.filter (fun n => decide (1 ≤ n ∧ n ≤ total)))).insertionSort
      (· ≤ ·)).length = 0 := by
    rw [List.length_insertionSort, List.length_eq_zero]
    intro hd
    rcases List.exists_mem_of_ne_nil _ hne with ⟨a, ha⟩
    have hmem : a ∈ dedupFirst (req.filter (fun n => decide (1 ≤ n ∧ n ≤ total))) :=
      mem_dedupFirst.mpr ha
    rw [hd] at hmem
    exact absurd hmem (List.not_mem_nil a)
  have hcond : ¬ (req.length = 0 ∨ total ≤ 0) := by tauto
  unfold selectPages normalizePages
  rw [if_neg hcond, if_neg hlen]
  simp only [List.mem_insertionSort, mem_dedupFirst, List.mem_filter, decide_eq_true_iff]

/-- When no in-range page is requested, the whole document is selected. -/
theorem selectPages_all {req : List Int} {total : Int}
    (hempty : req.filter (fun n => decide (1 ≤ n ∧ n ≤ total)) = []) :
    selectPages req total = allPages total := by
  unfold selectPages normalizePages
  rcases Decidable.em (req.length = 0 ∨ total ≤ 0) with h | h
  · rw [if_pos h]
  · rw [if_neg h, hempty]
    rfl

/-- The last step of `WithDefaults` always leaves `includePageNumbers = true`. -/
theorem includePageNumbers_last_step (o3 : HybridProcessorOptions) :
    (if o3.includePageNumbers = false then { o3 with includePageNumbers := true }
      else o3).includePageNumbers = true := by
  by_cases h : o3.includePageNumbers = false
  · rw [if_pos h]
  · rw [if_neg h]
    exact eq_true_of_ne_false h

end Hybrid

/-- C7: page-subset resolution deduplicates, sorts ascending and drops
out-of-range entries; when nothing in range is requested (including an empty
request), all pages `1..total` are selected. -/
theorem claim_C7_selectPages (req : List Int) (total : Int) (hpos : 0 < total) :
    List.Sorted (· < ·) (Hybrid.selectPages req total) ∧
    (req.filter (fun n => decide (1 ≤ n ∧ n ≤ total)) = [] →
      Hybrid.selectPages req total = Hybrid.allPages total) ∧
    (req.filter (fun n => decide (1 ≤ n ∧ n ≤ total)) ≠ [] →
      ∀ n : Int, n ∈ Hybrid.selectPages req total ↔ (n ∈ req ∧ 1 ≤ n ∧ n ≤ total)) :=
  ⟨Hybrid.sorted_lt_selectPages req total,
    fun h => Hybrid.selectPages_all h,
    fun h n => Hybrid.mem_selectPages h n⟩

/-- C7 witness: requesting `[5, 2, 2, 999]` on a 10-page document yields
`[2, 5]`, and requesting only the out-of-range `[999, 0]` yields all pages. -/
theorem claim_C7_selectPages_witness :
    (0 : Int) < 10 ∧
    Hybrid.selectPages [5, 2, 2, 999] 10 = [2, 5] ∧
    List.Sorted (· < ·) (Hybrid.selectPages [5, 2, 2, 999] 10) ∧
    ((5 : Int) ∈ Hybrid.selectPages [5, 2, 2, 999] 10 ↔
      ((5 : Int) ∈ [(5 : Int), 2, 2, 999] ∧ 1 ≤ (5 : Int) ∧ (5 : Int) ≤ 10)) ∧
    Hybrid.selectPages [999, 0] 10 = Hybrid.allPages 10 :=
  ⟨by decide, by decide,
    (claim_C7_selectPages [5, 2, 2, 999] 10 (by decide)).1,
    (claim_C7_selectPages [5, 2, 2, 999] 10 (by decide)).2.2 (by decide) 5,
    (claim_C7_selectPages [999, 0] 10 (by decide)).2.1 (by decide)⟩

/-- C10: the defaults application always returns options with
`includePageNumbers = true`; a caller-supplied `false` is overwritten. -/
theorem claim_C10_includePageNumbers (o : Hybrid.HybridProcessorOptions) :
    (Hybrid.withDefaults o).includePageNumbers = true := by
  unfold Hybrid.withDefaults
  exact Hybrid.includePageNumbers_last_step _

/-- C8 counterexample: applying the orchestrator defaults to zero-valued
options yields `minWordsThreshold = 10` and `ocrTriggerRatio = 0.3`, not
the claimed `20` and `0.25`. -/
theorem claim_C8_counterexample :
    (Hybrid.withDefaults Hybrid.zeroOptions).minWordsThreshold = 10 ∧
    (Hybrid.withDefaults Hybrid.zeroOptions).ocrTriggerRatio = mkRat 3 10 ∧
    ¬((Hybrid.withDefaults Hybrid.zeroOptions).minWordsThreshold = 20 ∧
      (Hybrid.withDefaults Hybrid.zeroOptions).ocrTriggerRatio = mkRat 1 4) := by
  refine ⟨by decide, by decide, ?_⟩
  rintro ⟨h, -⟩
  exact absurd h (by decide)

/-- C8 (amended): after the orchestrator applies defaults to zero-valued
options, the options hold `minWordsThreshold = 10`,
`pageSeparator = "\n\n---\n\n"`, `includePageNumbers = true` and
`ocrTriggerRatio = 0.3`. -/
theorem claim_C8_withDefaults_zero :
    Hybrid.withDefaults Hybrid.zeroOptions =
      { minWordsThreshold := 10, pageSeparator := "\n\n---\n\n", includePageNumbers := true,
        ocrTriggerRatio := mkRat 3 10, pages := [], extractHeader := false,
        extractFooter := false, ocrModel := none } := by
  decide

namespace Hybrid

/-- A concrete three-page document: pages 1 and 2 carry a clean text layer,
page 3 is empty (needs OCR); the OCR gateway answers every requested page. -/
def envA : Env :=
  { pageCount := .ok 3
    textForPage := fun p => if p = 3 then "" else "abcdefghijklmnopqrstuvwxyz"
    runOCR := fun pages =>
      .ok (pages.map (fun i => { index := i, markdown := "recovered text content" })) }

/-- The same document with a failing OCR gateway. -/
def envErr : Env :=
  { pageCount := .ok 3
    textForPage := fun p => if p = 3 then "" else "abcdefghijklmnopqrstuvwxyz"
    runOCR := fun _ => .error "mistral unavailable" }

/-- Concrete options: threshold 1 word, trigger ratio 0.5, no page subset. -/
def optsA : HybridProcessorOptions :=
  { minWordsThreshold := 1, pageSeparator := "", includePageNumbers := false,
    ocrTriggerRatio := mkRat 1 2, pages := [], extractHeader := false, extractFooter := false,
    ocrModel := none }

theorem buildResult_pages_pageNumbers (opts : HybridProcessorOptions) (total : Int)
    (evals : List PageEval) (m : Int → Option String) :
    (buildResult opts total evals m).pages.map (fun p => p.pageNumber) =
      evals.map (fun ev => ev.page) := by
  simp only [buildResult, List.map_map]
  refine List.map_congr_left (fun ev _ => ?_)
  by_cases h : usesOCR m ev <;> simp [h, Function.comp]

theorem buildResult_counts (opts : HybridProcessorOptions) (total : Int)
    (evals : List PageEval) (m : Int → Option String) :
    (buildResult opts total evals m).textLayerPages + (buildResult opts total evals m).ocrPages
      = ((buildResult opts total evals m).pages.length : Int) := by
  simp only [buildResult]
  omega

theorem map_page_evalsFor (env : Env) (opts : HybridProcessorOptions) :
    ∀ pages : List Int, (evalsFor env opts pages).map (fun ev => ev.page) = pages
  | [] => rfl
  | p :: rest => by
    have ih := map_page_evalsFor env opts rest
    simp only [evalsFor, List.map_cons] at ih ⊢
    rw [ih]

/-- Any successful `processHybrid` run went through `buildResult` on the
evaluations of the selected pages of a positive page count. -/
theorem processHybrid_build (env : Env) (opts0 : HybridProcessorOptions)
    (hs : (processHybrid env opts0).1.success = true) :
    ∃ total m, env.pageCount = Except.ok total ∧ 0 < total ∧
      (processHybrid env opts0).1 =
        buildResult (withDefaults opts0) total
          (evalsFor env (withDefaults opts0) (selectPages (withDefaults opts0).pages total)) m := by
  unfold processHybrid at hs ⊢
  cases hpc : env.pageCount with
  | error e =>
    rw [hpc] at hs
    rw [processHybridCore] at hs
    exact absurd hs (by simp [fail])
  | ok total =>
    rw [hpc] at hs
    rw [processHybridCore] at hs ⊢
    by_cases htot : total ≤ 0
    · rw [if_pos htot] at hs
      exact absurd hs (by simp [fail])
    · rw [if_neg htot] at hs ⊢
      by_cases htgt : 0 < (ocrTarget (selectPages (withDefaults opts0).pages total)
          (flaggedOf (evalsFor env (withDefaults opts0)
            (selectPages (withDefaults opts0).pages total)))
          (withDefaults opts0).ocrTriggerRatio).length
      · rw [if_pos htgt] at hs ⊢
        cases hocr : env.runOCR (ocrTarget (selectPages (withDefaults opts0).pages total)
            (flaggedOf (evalsFor env (withDefaults opts0)
              (selectPages (withDefaults opts0).pages total)))
            (withDefaults opts0).ocrTriggerRatio) with
        | error e =>
          rw [hocr] at hs
          rw [ocrStep] at hs
          exact absurd hs (by simp [fail])
        | ok resp =>
          rw [ocrStep]
          exact ⟨total, mapFromPages resp, rfl, by omega, rfl⟩
      · rw [if_neg htgt]
        exact ⟨total, fun _ => none, rfl, by omega, rfl⟩

end Hybrid

/-- C2: every successful `ProcessHybrid` result satisfies
`textLayerPages + ocrPages = len(pages)`, its page numbers are strictly
ascending (hence duplicate-free), and they are exactly the selected pages. -/
theorem claim_C2_invariants (env : Hybrid.Env) (opts0 : Hybrid.HybridProcessorOptions)
    (hs : (Hybrid.processHybrid env opts0).1.success = true) :
    (Hybrid.processHybrid env opts0).1.textLayerPages +
        (Hybrid.processHybrid env opts0).1.ocrPages
      = (((Hybrid.processHybrid env opts0).1.pages.length : Int)) ∧
    List.Sorted (· < ·)
      ((Hybrid.processHybrid env opts0).1.pages.map (fun p => p.pageNumber)) ∧
    ∀ total : Int, env.pageCount = Except.ok total →
      (Hybrid.processHybrid env opts0).1.pages.map (fun p => p.pageNumber) =
        Hybrid.selectPages (Hybrid.withDefaults opts0).pages total := by
  obtain ⟨total, m, hpc, hpos, hbuild⟩ := Hybrid.processHybrid_build env opts0 hs
  refine ⟨?_, ?_, ?_⟩
  · rw [hbuild]
    exact Hybrid.buildResult_counts _ _ _ _
  · rw [hbuild, Hybrid.buildResult_pages_pageNumbers, Hybrid.map_page_evalsFor]
    exact Hybrid.sorted_lt_selectPages _ _
  · intro total' hpc'
    rw [hpc] at hpc'
    cases hpc'
    rw [hbuild, Hybrid.buildResult_pages_pageNumbers, Hybrid.map_page_evalsFor]

/-- C2 witness: a concrete successful three-page run. -/
theorem claim_C2_invariants_witness :
    (Hybrid.processHybrid Hybrid.envA Hybrid.optsA).1.success = true ∧
    ((Hybrid.processHybrid Hybrid.envA Hybrid.optsA).1.textLayerPages +
        (Hybrid.processHybrid Hybrid.envA Hybrid.optsA).1.ocrPages
      = (((Hybrid.processHybrid Hybrid.envA Hybrid.optsA).1.pages.length : Int)) ∧
    List.Sorted (· < ·)
      ((Hybrid.processHybrid Hybrid.envA Hybrid.optsA).1.pages.map (fun p => p.pageNumber)) ∧
    ∀ total : Int, Hybrid.envA.pageCount = Except.ok total →
      (Hybrid.processHybrid Hybrid.envA Hybrid.optsA).1.pages.map (fun p => p.pageNumber) =
        Hybrid.selectPages (Hybrid.withDefaults Hybrid.optsA).pages total) :=
  ⟨by decide, claim_C2_invariants Hybrid.envA Hybrid.optsA (by decide)⟩

namespace Hybrid

theorem length_toZeroIndexed (l : List Int) : (toZeroIndexed l).length = l.length := by
  rw [toZeroIndexed, List.length_insertionSort, List.length_map]

/-- A ratio strictly above a non-negative trigger forces both a flagged page
and a non-empty selection. -/
theorem pos_of_ratio_gt {sel fl : List Int} {t : ℚ} (ht : 0 ≤ t)
    (h : ratioOf sel fl > t) : 0 < fl.length ∧ 0 < sel.length := by
  unfold ratioOf at h
  by_cases hs : 0 < sel.length
  · rw [if_pos hs] at h
    refine ⟨?_, hs⟩
    by_contra h0
    have hz : fl.length = 0 := by omega
    rw [hz] at h
    rw [qdiv_eq] at h
    simp only [Nat.cast_zero, zero_div] at h
    exact absurd h (not_lt.mpr ht)
  · rw [if_neg hs] at h
    exact absurd h (not_lt.mpr ht)

end Hybrid

/-- C3: if the single batched OCR call fails, `ProcessHybrid` returns a
failure result — `success = false` with an error message, no pages and no
combined text; no partial merge is produced. -/
theorem claim_C3_ocr_failure (env : Hybrid.Env) (opts0 : Hybrid.HybridProcessorOptions)
    (c : List Int) (e : String)
    (hc : (Hybrid.processHybrid env opts0).2 = [c]) (he : env.runOCR c = .error e) :
    (Hybrid.processHybrid env opts0).1 = Hybrid.fail ("ocr failed: " ++ e) ∧
    (Hybrid.processHybrid env opts0).1.success = false ∧
    (Hybrid.processHybrid env opts0).1.pages = [] ∧
    (Hybrid.processHybrid env opts0).1.text = "" ∧
    (Hybrid.processHybrid env opts0).1.error = some ("ocr failed: " ++ e) := by
  suffices hres : (Hybrid.processHybrid env opts0).1 = Hybrid.fail ("ocr failed: " ++ e) by
    exact ⟨hres, by rw [hres]; rfl, by rw [hres]; rfl, by rw [hres]; rfl, by rw [hres]; rfl⟩
  unfold Hybrid.processHybrid at hc ⊢
  cases hpc : env.pageCount with
  | error e' =>
    rw [hpc] at hc
    rw [Hybrid.processHybridCore] at hc
    exact absurd hc (by simp)
  | ok total =>
    rw [hpc] at hc
    rw [Hybrid.processHybridCore] at hc ⊢
    by_cases htot : total ≤ 0
    · rw [if_pos htot] at hc
      exact absurd hc (by simp)
    · rw [if_neg htot] at hc ⊢
      by_cases htgt : 0 < (Hybrid.ocrTarget
          (Hybrid.selectPages (Hybrid.withDefaults opts0).pages total)
          (Hybrid.flaggedOf (Hybrid.evalsFor env (Hybrid.withDefaults opts0)
            (Hybrid.selectPages (Hybrid.withDefaults opts0).pages total)))
          (Hybrid.withDefaults opts0).ocrTriggerRatio).length
      · rw [if_pos htgt] at hc ⊢
        cases hocr : env.runOCR (Hybrid.ocrTarget
            (Hybrid.selectPages (Hybrid.withDefaults opts0).pages total)
            (Hybrid.flaggedOf (Hybrid.evalsFor env (Hybrid.withDefaults opts0)
              (Hybrid.selectPages (Hybrid.withDefaults opts0).pages total)))
            (Hybrid.withDefaults opts0).ocrTriggerRatio) with
        | error e2 =>
          rw [hocr] at hc
          rw [Hybrid.ocrStep] at hc ⊢
          have hceq : c = Hybrid.ocrTarget
              (Hybrid.selectPages (Hybrid.withDefaults opts0).pages total)
              (Hybrid.flaggedOf (Hybrid.evalsFor env (Hybrid.withDefaults opts0)
                (Hybrid.selectPages (Hybrid.withDefaults opts0).pages total)))
              (Hybrid.withDefaults opts0).ocrTriggerRatio := by
            have := hc
            simp only [List.cons.injEq, and_true] at this
            exact this.symm
          rw [hceq] at he
          rw [hocr] at he
          cases he
          rfl
        | ok resp =>
          rw [hocr] at hc
          have hceq : c = Hybrid.ocrTarget
              (Hybrid.selectPages (Hybrid.withDefaults opts0).pages total)
              (Hybrid.flaggedOf (Hybrid.evalsFor env (Hybrid.withDefaults opts0)
                (Hybrid.selectPages (Hybrid.withDefaults opts0).pages total)))
              (Hybrid.withDefaults opts0).ocrTriggerRatio := by
            rw [Hybrid.ocrStep] at hc
            simp only [List.cons.injEq, and_true] at hc
            exact hc.symm
          rw [hceq, hocr] at he
          exact absurd he (by simp)
      · rw [if_neg htgt] at hc
        exact absurd hc (by simp)

/-- C3 witness: on a document whose OCR gateway fails, the one issued call
`[2]` fails and the whole request fails without pages or text. -/
theorem claim_C3_ocr_failure_witness :
    (Hybrid.processHybrid Hybrid.envErr Hybrid.optsA).2 = [[2]] ∧
    Hybrid.envErr.runOCR [2] = Except.error "mistral unavailable" ∧
    ((Hybrid.processHybrid Hybrid.envErr Hybrid.optsA).1 =
        Hybrid.fail ("ocr failed: " ++ "mistral unavailable") ∧
      (Hybrid.processHybrid Hybrid.envErr Hybrid.optsA).1.success = false ∧
      (Hybrid.processHybrid Hybrid.envErr Hybrid.optsA).1.pages = [] ∧
      (Hybrid.processHybrid Hybrid.envErr Hybrid.optsA).1.text = "" ∧
      (Hybrid.processHybrid Hybrid.envErr Hybrid.optsA).1.error =
        some ("ocr failed: " ++ "mistral unavailable")) :=
  ⟨by decide, rfl,
    claim_C3_ocr_failure Hybrid.envErr Hybrid.optsA [2] "mistral unavailable"
      (by decide) rfl⟩

/-- C1: the page argument of the single OCR call — all selected pages
(zero-indexed) when the flagged ratio exceeds the trigger, exactly the
flagged pages when some page is flagged but the ratio does not exceed the
trigger, and no call at all when no page is flagged. -/
theorem claim_C1_ocr_scope (env : Hybrid.Env) (opts0 : Hybrid.HybridProcessorOptions)
    (total : Int) (sel flagged : List Int)
    (hpc : env.pageCount = Except.ok total) (hpos : 0 < total)
    (hsel : sel = Hybrid.selectPages (Hybrid.withDefaults opts0).pages total)
    (hfl : flagged = Hybrid.flaggedOf (Hybrid.evalsFor env (Hybrid.withDefaults opts0) sel))
    (htr : 0 ≤ (Hybrid.withDefaults opts0).ocrTriggerRatio) :
    (Hybrid.ratioOf sel flagged > (Hybrid.withDefaults opts0).ocrTriggerRatio →
      (Hybrid.processHybrid env opts0).2 = [Hybrid.toZeroIndexed sel]) ∧
    (flagged ≠ [] →
      Hybrid.ratioOf sel flagged ≤ (Hybrid.withDefaults opts0).ocrTriggerRatio →
      (Hybrid.processHybrid env opts0).2 = [Hybrid.toZeroIndexed flagged]) ∧
    (flagged = [] → (Hybrid.processHybrid env opts0).2 = []) := by
  subst hsel
  subst hfl
  unfold Hybrid.processHybrid
  rw [hpc]
  rw [Hybrid.processHybridCore]
  rw [if_neg (by omega : ¬ total ≤ 0)]
  dsimp only
  refine ⟨?_, ?_, ?_⟩
  · intro hgt
    obtain ⟨hflpos, hselpos⟩ := Hybrid.pos_of_ratio_gt htr hgt
    have hT : Hybrid.ocrTarget (Hybrid.selectPages (Hybrid.withDefaults opts0).pages total)
        (Hybrid.flaggedOf (Hybrid.evalsFor env (Hybrid.withDefaults opts0)
          (Hybrid.selectPages (Hybrid.withDefaults opts0).pages total)))
        (Hybrid.withDefaults opts0).ocrTriggerRatio =
        Hybrid.toZeroIndexed (Hybrid.selectPages (Hybrid.withDefaults opts0).pages total) := by
      rw [Hybrid.ocrTarget, if_pos hflpos, if_pos hgt]
    rw [hT, if_pos (by rw [Hybrid.length_toZeroIndexed]; exact hselpos)]
    cases env.runOCR (Hybrid.toZeroIndexed
        (Hybrid.selectPages (Hybrid.withDefaults opts0).pages total)) <;> rfl
  · intro hne hle
    have hflpos : 0 < (Hybrid.flaggedOf (Hybrid.evalsFor env (Hybrid.withDefaults opts0)
        (Hybrid.selectPages (Hybrid.withDefaults opts0).pages total))).length :=
      List.length_pos.mpr hne
    have hT : Hybrid.ocrTarget (Hybrid.selectPages (Hybrid.withDefaults opts0).pages total)
        (Hybrid.flaggedOf (Hybrid.evalsFor env (Hybrid.withDefaults opts0)
          (Hybrid.selectPages (Hybrid.withDefaults opts0).pages total)))
        (Hybrid.withDefaults opts0).ocrTriggerRatio =
        Hybrid.toZeroIndexed (Hybrid.flaggedOf (Hybrid.evalsFor env (Hybrid.withDefaults opts0)
          (Hybrid.selectPages (Hybrid.withDefaults opts0).pages total))) := by
      rw [Hybrid.ocrTarget, if_pos hflpos, if_neg (not_lt.mpr hle)]
    rw [hT, if_pos (by rw [Hybrid.length_toZeroIndexed]; exact hflpos)]
    cases env.runOCR (Hybrid.toZeroIndexed
        (Hybrid.flaggedOf (Hybrid.evalsFor env (Hybrid.withDefaults opts0)
          (Hybrid.selectPages (Hybrid.withDefaults opts0).pages total)))) <;> rfl
  · intro h0
    have hT : Hybrid.ocrTarget (Hybrid.selectPages (Hybrid.withDefaults opts0).pages total)
        (Hybrid.flaggedOf (Hybrid.evalsFor env (Hybrid.withDefaults opts0)
          (Hybrid.selectPages (Hybrid.withDefaults opts0).pages total)))
        (Hybrid.withDefaults opts0).ocrTriggerRatio = [] := by
      rw [Hybrid.ocrTarget, if_neg]
      rw [h0]
      simp
    rw [hT, if_neg (by simp)]

/-- C1 witness: one flagged page of three with ratio 1/3 ≤ trigger 1/2 —
only the flagged page, zero-indexed, is submitted. -/
theorem claim_C1_ocr_scope_witness :
    (Hybrid.processHybrid Hybrid.envA Hybrid.optsA).2 = [Hybrid.toZeroIndexed [3]] ∧
    Hybrid.toZeroIndexed [3] = [2] :=
  ⟨(claim_C1_ocr_scope Hybrid.envA Hybrid.optsA 3 [1, 2, 3] [3] rfl (by decide)
      (by decide) (by decide) (by decide)).2.1 (by decide) (by decide),
    by decide⟩

/-- C9: `ProcessPreview` issues no OCR call, and its aggregate `needsOCR` is
true exactly when at least one selected page is flagged and the flagged
ratio exceeds the trigger. -/
theorem claim_C9_preview (env : Hybrid.Env) (opts0 : Hybrid.HybridProcessorOptions)
    (total : Int) (sel flagged : List Int)
    (hpc : env.pageCount = Except.ok total) (hpos : 0 < total)
    (hsel : sel = Hybrid.selectPages (Hybrid.withDefaults opts0).pages total)
    (hfl : flagged = Hybrid.flaggedOf (Hybrid.evalsFor env (Hybrid.withDefaults opts0) sel)) :
    (Hybrid.processPreview env opts0).2 = [] ∧
    ((Hybrid.processPreview env opts0).1.needsOCR = true ↔
      (0 < flagged.length ∧
        Hybrid.ratioOf sel flagged > (Hybrid.withDefaults opts0).ocrTriggerRatio)) := by
  subst hsel
  subst hfl
  unfold Hybrid.processPreview
  rw [hpc]
  rw [Hybrid.processPreviewCore]
  rw [if_neg (by omega : ¬ total ≤ 0)]
  refine ⟨rfl, ?_⟩
  have hlen : (Hybrid.flaggedOf (Hybrid.evalsFor env (Hybrid.withDefaults opts0)
      (Hybrid.selectPages (Hybrid.withDefaults opts0).pages total))).length =
      ((Hybrid.evalsFor env (Hybrid.withDefaults opts0)
        (Hybrid.selectPages (Hybrid.withDefaults opts0).pages total)).filter
          (fun ev => ev.decision.needsOCR)).length := List.length_map _ _
  simp only [Bool.and_eq_true, decide_eq_true_iff, hlen]

/-- C9 witness: one flagged page of three with ratio 1/3 ≤ trigger 1/2 —
preview issues no call and reports `needsOCR = false`. -/
theorem claim_C9_preview_witness :
    ((Hybrid.processPreview Hybrid.envA Hybrid.optsA).2 = [] ∧
      ((Hybrid.processPreview Hybrid.envA Hybrid.optsA).1.needsOCR = true ↔
        (0 < ([3] : List Int).length ∧
          Hybrid.ratioOf [1, 2, 3] [3] >
            (Hybrid.withDefaults Hybrid.optsA).ocrTriggerRatio))) ∧
    (Hybrid.processPreview Hybrid.envA Hybrid.optsA).1.needsOCR = false :=
  ⟨claim_C9_preview Hybrid.envA Hybrid.optsA 3 [1, 2, 3] [3] rfl (by decide)
      (by decide) (by decide),
    by decide⟩

/-- C4 counterexample: a page of 31 repeated low-alpha words scores exactly
0.50 and is classified `needsOCR`, so "needsOCR iff score < 0.50" fails. -/
theorem claim_C4_counterexample :
    (Quality.Score (String.intercalate " " (List.replicate 31 "a##")) 1).quality = mkRat 1 2 ∧
    (Quality.Score (String.intercalate " " (List.replicate 31 "a##")) 1).needsOCR = true ∧
    ¬((Quality.Score (String.intercalate " " (List.replicate 31 "a##")) 1).needsOCR = true ↔
      (Quality.Score (String.intercalate " " (List.replicate 31 "a##")) 1).quality <
        mkRat 1 2) := by
  refine ⟨by decide, by decide, ?_⟩
  intro hiff
  have h1 : (Quality.Score (String.intercalate " " (List.replicate 31 "a##")) 1).needsOCR =
      true := by decide
  have h2 := hiff.mp h1
  revert h2
  decide

/-- C4 (amended): for every text and threshold, the returned quality score
is the clamped score in [0,1], `needsOCR` holds iff score < 0.55, and
`maybeOCR` holds iff 0.55 ≤ score < 0.70. -/
theorem claim_C4_bands (text : String) (minWords : Int) :
    ((Quality.Score text minWords).needsOCR = true ↔
      (Quality.Score text minWords).quality < mkRat 55 100) ∧
    ((Quality.Score text minWords).maybeOCR = true ↔
      (mkRat 55 100 ≤ (Quality.Score text minWords).quality ∧
        (Quality.Score text minWords).quality < mkRat 70 100)) ∧
    0 ≤ (Quality.Score text minWords).quality ∧
    (Quality.Score text minWords).quality ≤ 1 := by
  unfold Quality.Score
  rcases hsf : Quality.scoreFeatures text minWords with ⟨raw, reasons, wc⟩
  dsimp only
  refine ⟨by simp [decide_eq_true_iff], ?_, ?_, ?_⟩
  · simp only [Bool.and_eq_true, Bool.not_eq_true', decide_eq_false_iff_not,
      decide_eq_true_iff, not_lt]
  · exact le_max_left _ _
  · exact max_le (by norm_num) (min_le_left _ _)

namespace Hybrid

theorem buildResult_savings (opts : HybridProcessorOptions) (total : Int)
    (evals : List PageEval) (m : Int → Option String) :
    (buildResult opts total evals m).costSavingsPercent =
      if 0 < (buildResult opts total evals m).pages.length then
        truncQ ((1 - ((buildResult opts total evals m).ocrPages : ℚ) /
          ((buildResult opts total evals m).pages.length : ℚ)) * 100)
      else 0 := by
  simp only [buildResult, qmul_eq, qsub_eq, qdiv_eq]
  split_ifs with h
  · congr 1
  · rfl

end Hybrid

/-- C6 counterexample: a successful run with one OCR page of three stores
`costSavingsPercent = 66` (Go `int(...)` truncation), while
`round((1 − 1/3) × 100) = 67`, so the claimed rounding law fails. -/
theorem claim_C6_counterexample :
    (Hybrid.processHybrid Hybrid.envA Hybrid.optsA).1.success = true ∧
    (Hybrid.processHybrid Hybrid.envA Hybrid.optsA).1.ocrPages = 1 ∧
    (Hybrid.processHybrid Hybrid.envA Hybrid.optsA).1.pages.length = 3 ∧
    (Hybrid.processHybrid Hybrid.envA Hybrid.optsA).1.costSavingsPercent = 66 ∧
    round ((1 - (1 : ℚ)/3) * 100) = (67 : Int) ∧
    ¬((Hybrid.processHybrid Hybrid.envA Hybrid.optsA).1.costSavingsPercent =
      round ((1 - (1 : ℚ)/3) * 100)) := by
  have hround : round ((1 - (1 : ℚ)/3) * 100) = (67 : Int) := by
    have h1 : (1 - (1 : ℚ)/3) * 100 = 200/3 := by norm_num
    rw [h1, round_eq]
    have h2 : (200 : ℚ)/3 + 1/2 = 403/6 := by norm_num
    rw [h2]
    rw [Int.floor_eq_iff]
    norm_num
  refine ⟨by decide, by decide, by decide, by decide, hround, ?_⟩
  intro heq
  rw [hround] at heq
  have h66 : (Hybrid.processHybrid Hybrid.envA Hybrid.optsA).1.costSavingsPercent = 66 := by
    decide
  rw [h66] at heq
  exact absurd heq (by decide)

/-- C6 (amended): for every successful result with a non-empty pages list,
`costSavingsPercent` equals `(1 − ocrPages/len(pages)) × 100` truncated
toward zero (Go's `int(...)` conversion), not rounded; it is 100 when
`ocrPages = 0` and 0 when every page was OCR'd. -/
theorem claim_C6_savings (env : Hybrid.Env) (opts0 : Hybrid.HybridProcessorOptions)
    (hs : (Hybrid.processHybrid env opts0).1.success = true)
    (hne : (Hybrid.processHybrid env opts0).1.pages ≠ []) :
    (Hybrid.processHybrid env opts0).1.costSavingsPercent =
      truncQ ((1 - ((Hybrid.processHybrid env opts0).1.ocrPages : ℚ) /
        ((Hybrid.processHybrid env opts0).1.pages.length : ℚ)) * 100) ∧
    ((Hybrid.processHybrid env opts0).1.ocrPages = 0 →
      (Hybrid.processHybrid env opts0).1.costSavingsPercent = 100) ∧
    ((Hybrid.processHybrid env opts0).1.ocrPages =
        ((Hybrid.processHybrid env opts0).1.pages.length : Int) →
      (Hybrid.processHybrid env opts0).1.costSavingsPercent = 0) := by
  have hlen : 0 < (Hybrid.processHybrid env opts0).1.pages.length :=
    List.length_pos.mpr hne
  have hmain : (Hybrid.processHybrid env opts0).1.costSavingsPercent =
      truncQ ((1 - ((Hybrid.processHybrid env opts0).1.ocrPages : ℚ) /
        ((Hybrid.processHybrid env opts0).1.pages.length : ℚ)) * 100) := by
    obtain ⟨total, m, hpc, hpos, hbuild⟩ := Hybrid.processHybrid_build env opts0 hs
    rw [hbuild]
    rw [hbuild] at hlen
    rw [Hybrid.buildResult_savings, if_pos hlen]
  refine ⟨hmain, ?_, ?_⟩
  · intro h0
    rw [hmain, h0]
    norm_num [truncQ]
  · intro hall
    rw [hmain, hall]
    have hq : (((Hybrid.processHybrid env opts0).1.pages.length : Int) : ℚ) =
        ((Hybrid.processHybrid env opts0).1.pages.length : ℚ) := by push_cast; rfl
    rw [hq, div_self (by exact_mod_cast Nat.pos_iff_ne_zero.mp hlen)]
    norm_num [truncQ]

/-- C6 witness: instantiating the savings law on the concrete run. -/
theorem claim_C6_savings_witness :
    (Hybrid.processHybrid Hybrid.envA Hybrid.optsA).1.costSavingsPercent =
      truncQ ((1 - ((Hybrid.processHybrid Hybrid.envA Hybrid.optsA).1.ocrPages : ℚ) /
        ((Hybrid.processHybrid Hybrid.envA Hybrid.optsA).1.pages.length : ℚ)) * 100) ∧
    ((Hybrid.processHybrid Hybrid.envA Hybrid.optsA).1.ocrPages = 0 →
      (Hybrid.processHybrid Hybrid.envA Hybrid.optsA).1.costSavingsPercent = 100) ∧
    ((Hybrid.processHybrid Hybrid.envA Hybrid.optsA).1.ocrPages =
        ((Hybrid.processHybrid Hybrid.envA Hybrid.optsA).1.pages.length : Int) →
      (Hybrid.processHybrid Hybrid.envA Hybrid.optsA).1.costSavingsPercent = 0) :=
  claim_C6_savings Hybrid.envA Hybrid.optsA (by decide) (by decide)

namespace GoStr

theorem dropWhile_idem {α : Type} (p : α → Bool) :
    ∀ l : List α, (l.dropWhile p).dropWhile p = l.dropWhile p
  | [] => rfl
  | c :: t => by
    by_cases h : p c <;> simp [List.dropWhile_cons, h, dropWhile_idem p t]

theorem head?_dropWhile_false {α : Type} (p : α → Bool) :
    ∀ (l : List α) (c : α), (l.dropWhile p).head? = some c → p c = false
  | [], c => by simp
  | d :: t, c => by
    by_cases h : p d
    · rw [List.dropWhile_cons, if_pos h]
      exact head?_dropWhile_false p t c
    · rw [List.dropWhile_cons, if_neg h]
      intro hc
      simp only [List.head?_cons, Option.some.injEq] at hc
      subst hc
      simpa using h

theorem dropWhile_eq_self_of_head {α : Type} (p : α → Bool) (l : List α)
    (h : ∀ c, l.head? = some c → p c = false) : l.dropWhile p = l := by
  cases l with
  | nil => rfl
  | cons d t =>
    rw [List.dropWhile_cons, if_neg]
    rw [h d rfl]
    simp

theorem getLastQ_dropWhile {α : Type} (p : α → Bool) :
    ∀ l : List α, l.dropWhile p = [] ∨ (l.dropWhile p).getLast? = l.getLast?
  | [] => Or.inl rfl
  | d :: t => by
    by_cases h : p d
    · rw [List.dropWhile_cons, if_pos h]
      cases t with
      | nil => exact Or.inl rfl
      | cons e t' =>
        rcases getLastQ_dropWhile p (e :: t') with h0 | hl
        · exact Or.inl h0
        · right
          rw [hl, List.getLast?_cons_cons]
    · rw [List.dropWhile_cons, if_neg h]
      exact Or.inr rfl

theorem head?_trim_false (l : List Char) (c : Char) :
    (trim l).head? = some c → goIsSpace c = false := by
  intro hc
  unfold trim trimLeft at hc
  rw [List.head?_reverse] at hc
  rcases getLastQ_dropWhile goIsSpace ((l.dropWhile goIsSpace).reverse) with h0 | hl
  · rw [h0] at hc
    exact absurd hc (by simp)
  · rw [hl, List.getLast?_reverse] at hc
    exact head?_dropWhile_false goIsSpace _ c hc

theorem trim_trim (l : List Char) : trim (trim l) = trim l := by
  have h1 : (trim l).dropWhile goIsSpace = trim l :=
    dropWhile_eq_self_of_head goIsSpace (trim l) (head?_trim_false l)
  show ((((trim l).dropWhile goIsSpace).reverse.dropWhile goIsSpace)).reverse = trim l
  rw [h1]
  have h2 : (trim l).reverse = (((l.dropWhile goIsSpace).reverse).dropWhile goIsSpace) := by
    unfold trim trimLeft
    rw [List.reverse_reverse]
  rw [h2, dropWhile_idem]
  rfl

theorem fieldsAux_ne_nil : ∀ (t : List Char) (cur : List Char), cur ≠ [] → fieldsAux cur t ≠ []
  | [], cur, h => by simp [fieldsAux, h]
  | c :: t, cur, h => by
    by_cases hsp : goIsSpace c
    · simp [fieldsAux, hsp, h]
    · have hrec := fieldsAux_ne_nil t (c :: cur) (by simp)
      simp [fieldsAux, hsp, hrec]

end GoStr

namespace Quality

/-- `CountWords` is zero exactly when the trimmed text is empty. -/
theorem countWords_eq_zero_iff (s : String) :
    countWords s = 0 ↔ GoStr.trim s.data = [] := by
  unfold countWords goTrimSpace
  constructor
  · intro h0
    by_contra hne
    have hstr : ¬ ((⟨GoStr.trim s.data⟩ : String) = "") := by
      simpa [String.ext_iff] using hne
    rw [if_neg hstr] at h0
    rw [List.length_eq_zero] at h0
    cases hd : (GoStr.trim s.data).head? with
    | none =>
      rw [List.head?_eq_none_iff] at hd
      exact hne hd
    | some c =>
      have hcf : GoStr.goIsSpace c = false := GoStr.head?_trim_false s.data c hd
      obtain ⟨rest, hrest⟩ : ∃ rest, GoStr.trim s.data = c :: rest := by
        cases hl : GoStr.trim s.data with
        | nil => rw [hl] at hd; exact absurd hd (by simp)
        | cons d r =>
          rw [hl] at hd
          simp only [List.head?_cons, Option.some.injEq] at hd
          exact ⟨r, by rw [hd]⟩
      rw [hrest] at h0
      unfold GoStr.fields at h0
      rw [GoStr.fieldsAux] at h0
      rw [if_neg (by rw [hcf]; simp)] at h0
      exact GoStr.fieldsAux_ne_nil rest [c] (by simp) h0
  · intro h
    rw [if_pos (by simp [String.ext_iff, h])]

/-- A normalized text with zero words is the empty string. -/
theorem normalize_eq_empty (text : String) (h0 : countWords (normalize text) = 0) :
    normalize text = "" := by
  rw [countWords_eq_zero_iff] at h0
  have hdata : (normalize text).data =
      GoStr.trim (GoStr.capNewlines (GoStr.collapseWS (GoStr.crToNl
        (GoStr.replaceCRLF text.data)))) := rfl
  rw [hdata, GoStr.trim_trim] at h0
  rw [String.ext_iff, hdata, h0]

end Quality

/-- C5 counterexample: `Score("", 20)` returns score 0.20 (not 0) with
reasons `[low_word_count, low_alpha_ratio]` — there is no "empty text"
short-circuit and no reason with that name. -/
theorem claim_C5_counterexample :
    (Quality.Score "" 20).quality = mkRat 1 5 ∧
    (Quality.Score "" 20).quality ≠ 0 ∧
    (Quality.Score "" 20).needsOCR = true ∧
    (Quality.Score "" 20).reasons = ["low_word_count", "low_alpha_ratio"] ∧
    ¬ ("empty text" ∈ (Quality.Score "" 20).reasons) := by
  refine ⟨by decide, ?_, by decide, by decide, ?_⟩
  · intro h
    have h5 : (Quality.Score "" 20).quality = mkRat 1 5 := by decide
    rw [h5] at h
    exact absurd h (by decide)
  · intro h
    have hr : (Quality.Score "" 20).reasons = ["low_word_count", "low_alpha_ratio"] := by
      decide
    rw [hr] at h
    revert h
    decide

/-- C5 (amended): for every threshold t > 0 and every text whose normalized
word count is zero, `Score` runs the ordinary penalty pipeline (no
short-circuit): it returns score 0.20 with `needsOCR = true` and reasons
`["low_word_count", "low_alpha_ratio"]`, word count 0. -/
theorem claim_C5_zero_words (text : String) (t : Int) (ht : 0 < t)
    (h0 : Quality.countWords (Quality.normalize text) = 0) :
    Quality.Score text t =
      { quality := mkRat 1 5, needsOCR := true, maybeOCR := false,
        reasons := ["low_word_count", "low_alpha_ratio"], wordCount := 0 } := by
  have hclean : Quality.normalize text = "" := Quality.normalize_eq_empty text h0
  have hsf : Quality.scoreFeatures text t =
      (mkRat 1 5, ["low_word_count", "low_alpha_ratio"], 0) := by
    unfold Quality.scoreFeatures
    rw [hclean]
    dsimp only
    have hc2 : ((Quality.countWords "" : Int) < t) := by
      have hz : Quality.countWords "" = 0 := rfl
      rw [hz]
      exact_mod_cast ht
    rw [if_pos hc2]
    rw [if_pos (by decide : Quality.safeDiv (Quality.countIf "" GoStr.goIsLetter : ℚ)
      ((("" : String).data.length : ℚ)) < mkRat 35 100)]
    rw [if_neg (by decide : ¬ Quality.safeDiv (Quality.countGarbage "" : ℚ)
      ((("" : String).data.length : ℚ)) > mkRat 1 100)]
    rw [if_neg (by decide : ¬ (0 < (Quality.splitLines "").length ∧
      (Quality.lineStats (Quality.splitLines "")).2 > mkRat 55 100 ∧
      (Quality.lineStats (Quality.splitLines "")).1 < 25))]
    rw [if_neg (by decide : ¬ (30 < Quality.countWords "" ∧
      Quality.uniqueWordRatio "" < mkRat 25 100))]
    rw [if_neg ?hc7]
    case hc7 =>
      rintro ⟨hd, -, -⟩
      revert hd
      decide
    decide
  unfold Quality.Score
  rw [hsf]
  decide

/-- C5 witness: the amended statement at the empty string with threshold 20. -/
theorem claim_C5_zero_words_witness :
    (0 : Int) < 20 ∧
    Quality.countWords (Quality.normalize "") = 0 ∧
    Quality.Score "" 20 =
      { quality := mkRat 1 5, needsOCR := true, maybeOCR := false,
        reasons := ["low_word_count", "low_alpha_ratio"], wordCount := 0 } :=
  ⟨by decide, by decide, claim_C5_zero_words "" 20 (by decide) (by decide)⟩
